import Mathlib

/-!
Verification development for the HISAT2 GUI front-end (`src/hisat2_GUI.py`).
Python strings are modelled as lists of characters; the string-manipulating
helpers of the program (`str.replace`, `str.split`, `Path.stem`, sorting,
command construction, paired-file grouping, the SAM-to-BAM conversion chain)
are embedded as executable Lean functions, and the concurrency structure of
the program (one worker thread per run, a shared `running` flag, a shared
process handle) is embedded as a small labelled transition system.
-/

namespace HisatGUI

/-- Characters of a filename, path, command-line argument or log message.
A Python `str` is modelled as its list of characters. -/
abbrev Str := List Char

/-- Character list of a Lean string literal (used to write concrete
Python strings from the source). -/
def str (s : String) : Str := s.data

/-- Severity classification of a line sent to the output console,
mirroring the text tags configured on the output widgets
(`info`, `command`, `success`, `warning`, `error`). -/
inductive Tag where
  | info
  | command
  | success
  | warning
  | error
deriving DecidableEq, Repr

/-- One message written to the log console: the text and its tag,
as passed to `log_message(message, tag)`. -/
abbrev LogEntry := Str × Tag

/-- `begins pat s` is true when `pat` is an initial segment of `s`
(the primitive behind Python substring search in `str.replace`). -/
def begins : Str → Str → Bool
  | [], _ => true
  | _ :: _, [] => false
  | p :: ps, c :: cs => p == c && begins ps cs

/-- `occursIn pat s` is true when `pat` occurs as a contiguous substring
of `s` (Python `pat in s`). -/
def occursIn (pat : Str) : Str → Bool
  | [] => pat.isEmpty
  | c :: rest => begins pat (c :: rest) || occursIn pat rest

/-- Python `s.replace(pat, repl)`: replace every non-overlapping occurrence
of `pat` in `s` by `repl`, scanning left to right. -/
def replaceAll (pat repl : Str) : Str → Str
  | [] => []
  | c :: rest =>
    if _h : 0 < pat.length ∧ begins pat (c :: rest) = true then
      repl ++ replaceAll pat repl ((c :: rest).drop pat.length)
    else
      c :: replaceAll pat repl rest
termination_by s => s.length
decreasing_by
  · simp only [List.length_drop, List.length_cons]
    omega
  · simp

/-- `straddleFree pat t` holds when no strict suffix of `pat` is an initial
segment of `t`: an occurrence of `pat` in `s ++ t` can then never straddle
the boundary between `s` and `t`. -/
def straddleFree (pat t : Str) : Bool :=
  (List.range pat.length).all fun k => decide (k = 0) || !begins (pat.drop k) t

theorem begins_self_append (pat u : Str) : begins pat (pat ++ u) = true := by
  induction pat with
  | nil => rfl
  | cons p ps ih => simp [begins, ih]

theorem begins_of_begins_append {pat x t : Str}
    (h : begins pat (x ++ t) = true) (hl : pat.length ≤ x.length) :
    begins pat x = true := by
  induction pat generalizing x with
  | nil => rfl
  | cons p ps ih =>
    cases x with
    | nil => simp at hl
    | cons c cs =>
      simp only [List.cons_append, begins, Bool.and_eq_true] at h ⊢
      exact ⟨h.1, ih h.2 (by simpa using hl)⟩

theorem begins_drop_of_begins_append {pat x t : Str}
    (h : begins pat (x ++ t) = true) (hl : x.length ≤ pat.length) :
    begins (pat.drop x.length) t = true := by
  induction x generalizing pat with
  | nil => simpa using h
  | cons c cs ih =>
    cases pat with
    | nil => simp at hl
    | cons p ps =>
      simp only [List.cons_append, begins, Bool.and_eq_true] at h
      simpa using ih h.2 (by simpa using hl)

theorem occursIn_of_begins {pat s : Str} (h : begins pat s = true) :
    occursIn pat s = true := by
  cases s with
  | nil =>
    cases pat with
    | nil => rfl
    | cons p ps => simp [begins] at h
  | cons c rest => simp [occursIn, h]

theorem straddleFree_spec {pat t : Str} (h : straddleFree pat t = true)
    {k : Nat} (hk0 : 0 < k) (hk : k < pat.length) :
    begins (pat.drop k) t = false := by
  have := List.all_eq_true.mp h k (List.mem_range.mpr hk)
  simp only [Bool.or_eq_true, decide_eq_true_eq, Bool.not_eq_true'] at this
  rcases this with h0 | hb
  · omega
  · exact hb

theorem replaceAll_nil (pat repl : Str) : replaceAll pat repl [] = [] := by
  simp [replaceAll]

theorem replaceAll_head_match (pat repl u : Str) (hp : 0 < pat.length) :
    replaceAll pat repl (pat ++ u) = repl ++ replaceAll pat repl u := by
  cases pat with
  | nil => simp at hp
  | cons p ps =>
    rw [List.cons_append, replaceAll]
    rw [dif_pos ⟨hp, by rw [← List.cons_append]; exact begins_self_append _ u⟩]
    congr 1
    rw [← List.cons_append, List.drop_left]

theorem replaceAll_of_not_occurs {pat s : Str} (repl : Str)
    (h : occursIn pat s = false) : replaceAll pat repl s = s := by
  induction s with
  | nil => exact replaceAll_nil pat repl
  | cons c rest ih =>
    simp only [occursIn, Bool.or_eq_false_iff] at h
    rw [replaceAll, dif_neg (by
      rintro ⟨-, hb⟩
      rw [h.1] at hb
      exact Bool.false_ne_true hb)]
    rw [ih h.2]

theorem replaceAll_append_of_clean {pat s t : Str} (repl : Str)
    (hocc : occursIn pat s = false) (hstr : straddleFree pat t = true) :
    replaceAll pat repl (s ++ t) = s ++ replaceAll pat repl t := by
  induction s with
  | nil => simp
  | cons c rest ih =>
    simp only [occursIn, Bool.or_eq_false_iff] at hocc
    rw [List.cons_append, replaceAll, dif_neg]
    · rw [ih hocc.2, List.cons_append]
    · rintro ⟨hp, hb⟩
      by_cases hlen : pat.length ≤ (c :: rest).length
      · have := begins_of_begins_append (x := c :: rest) (by simpa using hb) hlen
        rw [hocc.1] at this
        exact Bool.false_ne_true this
      · push_neg at hlen
        have hb2 := begins_drop_of_begins_append (x := c :: rest)
          (by simpa using hb) (Nat.le_of_lt hlen)
        have := straddleFree_spec hstr (k := (c :: rest).length) (by simp) hlen
        rw [this] at hb2
        exact Bool.false_ne_true hb2

/-- A whitespace character in the sense of Python `str.split()` with no
argument (the join in the Runner only ever introduces plain spaces). -/
def isWsChar (c : Char) : Bool :=
  c == ' ' || c == '\t' || c == '\n' || c == '\r' || c == '\x0b' || c == '\x0c'

/-- Accumulator worker for `splitWs`: `cur` is the reversed current token. -/
def splitWsAux : Str → Str → List Str
  | cur, [] => if cur.isEmpty then [] else [cur.reverse]
  | cur, c :: rest =>
    if isWsChar c then
      if cur.isEmpty then splitWsAux [] rest else cur.reverse :: splitWsAux [] rest
    else splitWsAux (c :: cur) rest

/-- Python `s.split()`: split on runs of whitespace, dropping empty tokens. -/
def splitWs (s : Str) : List Str := splitWsAux [] s

/-- Python `" ".join(args)`. -/
def joinSp : List Str → Str
  | [] => []
  | [a] => a
  | a :: b :: rest => a ++ ' ' :: joinSp (b :: rest)

/-- The tokens of each argument in turn (what joining with spaces and then
splitting on whitespace produces). -/
def flatSplit : List Str → List Str
  | [] => []
  | a :: rest => splitWs a ++ flatSplit rest

theorem splitWsAux_nil (cur : Str) :
    splitWsAux cur [] = if cur.isEmpty then [] else [cur.reverse] := by
  rw [splitWsAux]

theorem splitWsAux_cons (cur : Str) (c : Char) (rest : Str) :
    splitWsAux cur (c :: rest) =
      if isWsChar c then
        if cur.isEmpty then splitWsAux [] rest else cur.reverse :: splitWsAux [] rest
      else splitWsAux (c :: cur) rest := by
  rw [splitWsAux]

theorem splitWsAux_append_space (x : Str) :
    ∀ (cur y : Str),
      splitWsAux cur (x ++ ' ' :: y) = splitWsAux cur x ++ splitWsAux [] y := by
  induction x with
  | nil =>
    intro cur y
    rw [List.nil_append, splitWsAux_cons,
      if_pos (show isWsChar ' ' = true from rfl), splitWsAux_nil]
    by_cases hc : cur.isEmpty
    · rw [if_pos hc, if_pos hc, List.nil_append]
    · rw [if_neg hc, if_neg hc, List.singleton_append]
  | cons c x' ih =>
    intro cur y
    rw [List.cons_append, splitWsAux_cons, splitWsAux_cons]
    by_cases hw : isWsChar c
    · rw [if_pos hw, if_pos hw]
      by_cases hc : cur.isEmpty
      · rw [if_pos hc, if_pos hc, ih]
      · rw [if_neg hc, if_neg hc, ih, List.cons_append]
    · rw [if_neg hw, if_neg hw, ih]

theorem splitWsAux_noWs :
    ∀ (t cur : Str), (∀ c ∈ t, isWsChar c = false) →
      splitWsAux cur t =
        if cur.isEmpty ∧ t.isEmpty then [] else [cur.reverse ++ t] := by
  intro t
  induction t with
  | nil =>
    intro cur _
    rw [splitWsAux_nil]
    by_cases hc : cur.isEmpty
    · simp [hc]
    · simp [hc]
  | cons c t' ih =>
    intro cur h
    rw [splitWsAux_cons, if_neg (by rw [h c (by simp)]; exact Bool.false_ne_true)]
    rw [ih (c :: cur) (fun d hd => h d (by simp [hd]))]
    simp

theorem splitWs_noWs {t : Str} (hne : t ≠ [])
    (h : ∀ c ∈ t, isWsChar c = false) : splitWs t = [t] := by
  rw [splitWs, splitWsAux_noWs t [] h]
  simp [List.isEmpty_iff, hne]

theorem splitWs_join (args : List Str) : splitWs (joinSp args) = flatSplit args := by
  induction args with
  | nil => rfl
  | cons a rest ih =>
    cases rest with
    | nil =>
      rw [flatSplit, flatSplit, List.append_nil]
      rfl
    | cons b rest' =>
      rw [joinSp, splitWs, splitWsAux_append_space, flatSplit]
      rw [← splitWs, ← splitWs, ih]

/-- Scan a token list for the first occurrence of `tok` and return the token
right after it (how a reader recovers the value of a command-line selector). -/
def lookupAfter (tok : Str) : List Str → Option Str
  | [] => none
  | a :: rest => if a = tok then rest.head? else lookupAfter tok rest

theorem lookupAfter_cons_self (tok v : Str) (rest : List Str) :
    lookupAfter tok (tok :: v :: rest) = some v := by
  rw [lookupAfter, if_pos rfl]
  rfl

theorem lookupAfter_append_of_not_mem {tok : Str} {xs : List Str} (ys : List Str)
    (h : tok ∉ xs) : lookupAfter tok (xs ++ ys) = lookupAfter tok ys := by
  induction xs with
  | nil => rfl
  | cons a xs' ih =>
    rw [List.cons_append, lookupAfter, if_neg (by
      intro he
      exact h (he ▸ List.mem_cons_self a xs')), ih (fun hm => h (List.mem_cons_of_mem a hm))]

/-- Index of the last dot in a name (Python rfind of the dot character), if any. -/
def rfindDot : Str → Option Nat
  | [] => none
  | c :: rest =>
    match rfindDot rest with
    | some i => some (i + 1)
    | none => if c = '.' then some 0 else none

/-- Python `PurePath.stem` applied to a bare file name: the name with its
final extension removed, unless the only dot is leading or trailing. -/
def stem (s : Str) : Str :=
  match rfindDot s with
  | none => s
  | some i => if 0 < i ∧ i + 1 < s.length then s.take i else s

/-- The final path component (the part after the last slash). -/
def lastComponent (s : Str) : Str :=
  (s.reverse.takeWhile (fun c => c != '/')).reverse

/-- Python `Path(s).stem`: final component with the last extension stripped. -/
def pathStem (s : Str) : Str := stem (lastComponent s)

/-- Little-endian decimal digits of `n`, with structural fuel. -/
def natDigitsRev : Nat → Nat → List Nat
  | 0, _ => []
  | fuel + 1, n => if n = 0 then [] else n % 10 :: natDigitsRev fuel (n / 10)

/-- The character of a decimal digit. -/
def digitChar (d : Nat) : Char := Char.ofNat (48 + d)

/-- Python `str(n)` for a non-negative integer `n`. -/
def natToStr (n : Nat) : Str :=
  if n = 0 then ['0'] else ((natDigitsRev n n).map digitChar).reverse

/-- Numeric value of a decimal digit character. -/
def charToDigit (c : Char) : Nat := c.toNat - 48

/-- Python `int(s)` on a string of decimal digits. -/
def parseNat (s : Str) : Nat := s.foldl (fun acc c => acc * 10 + charToDigit c) 0

theorem parseNat_append_digit (xs : Str) (c : Char) :
    parseNat (xs ++ [c]) = parseNat xs * 10 + charToDigit c := by
  simp [parseNat, List.foldl_append]

theorem charToDigit_digitChar {d : Nat} (h : d < 10) :
    charToDigit (digitChar d) = d := by
  interval_cases d <;> decide

theorem parseNat_digits_rev :
    ∀ (fuel n : Nat), n ≤ fuel →
      parseNat (((natDigitsRev fuel n).map digitChar).reverse) = n := by
  intro fuel
  induction fuel with
  | zero =>
    intro n hn
    interval_cases n
    rfl
  | succ fuel ih =>
    intro n hn
    by_cases h0 : n = 0
    · subst h0; rfl
    · rw [natDigitsRev, if_neg h0, List.map_cons, List.reverse_cons,
        parseNat_append_digit, ih (n / 10) (by omega),
        charToDigit_digitChar (Nat.mod_lt n (by omega))]
      omega

theorem parseNat_natToStr (n : Nat) : parseNat (natToStr n) = n := by
  by_cases h0 : n = 0
  · subst h0; rfl
  · rw [natToStr, if_neg h0]
    exact parseNat_digits_rev n n (Nat.le_refl n)

theorem natDigitsRev_lt (fuel n : Nat) : ∀ d ∈ natDigitsRev fuel n, d < 10 := by
  induction fuel generalizing n with
  | zero => intro d hd; simp [natDigitsRev] at hd
  | succ fuel ih =>
    intro d hd
    rw [natDigitsRev] at hd
    by_cases h0 : n = 0
    · simp [h0] at hd
    · rw [if_neg h0] at hd
      rcases List.mem_cons.mp hd with h | h
      · subst h; exact Nat.mod_lt n (by omega)
      · exact ih (n / 10) d h

theorem natToStr_digit_range (n : Nat) :
    ∀ c ∈ natToStr n, 48 ≤ c.toNat ∧ c.toNat ≤ 57 := by
  intro c hc
  by_cases h0 : n = 0
  · subst h0
    simp [natToStr] at hc
    rw [hc]; decide
  · rw [natToStr, if_neg h0] at hc
    rw [List.mem_reverse, List.mem_map] at hc
    obtain ⟨d, hd, hdc⟩ := hc
    have hlt := natDigitsRev_lt n n d hd
    subst hdc
    interval_cases d <;> decide

theorem natToStr_ne_nil (n : Nat) : natToStr n ≠ [] := by
  by_cases h0 : n = 0
  · subst h0; simp [natToStr]
  · rw [natToStr, if_neg h0]
    intro h
    rw [List.reverse_eq_nil_iff, List.map_eq_nil_iff] at h
    cases n with
    | zero => exact h0 rfl
    | succ m =>
      rw [natDigitsRev, if_neg h0] at h
      exact List.cons_ne_nil _ _ h

theorem natToStr_noWs (n : Nat) : ∀ c ∈ natToStr n, isWsChar c = false := by
  intro c hc
  have h := natToStr_digit_range n c hc
  have hv : (' ' : Char).toNat = 32 := rfl
  simp only [isWsChar, Bool.or_eq_false_iff, beq_eq_false_iff_ne]
  refine ⟨⟨⟨⟨⟨?_, ?_⟩, ?_⟩, ?_⟩, ?_⟩, ?_⟩ <;>
    (intro he; subst he; revert h; decide)

theorem natToStr_ne_dash_cons (n : Nat) (t : Str) : natToStr n ≠ '-' :: t := by
  intro h
  have : '-' ∈ natToStr n := by rw [h]; exact List.mem_cons_self _ _
  have := natToStr_digit_range n '-' this
  revert this
  decide

/-! ## Configuration and command construction (`run_single_alignment`) -/

/-- The preset choices offered by the preset option menu
(`fast`, `sensitive`, `very-sensitive`). -/
inductive Preset where
  | fast
  | sensitive
  | verySensitive
deriving DecidableEq, Repr

/-- The string value held by the `preset_mode` variable. -/
def presetName : Preset → Str
  | .fast => str "fast"
  | .sensitive => str "sensitive"
  | .verySensitive => str "very-sensitive"

/-- The read-type radio buttons (`single` / `paired`). -/
inductive AMode where
  | single
  | paired
deriving DecidableEq, Repr

/-- Values of the `strand_direction` variable: its initial value is
`unstranded` and the two radio buttons set `fr` or `rf`. -/
inductive SDir where
  | unstranded
  | fr
  | rf
deriving DecidableEq, Repr

/-- The user-supplied state read by `validate_inputs` and
`run_single_alignment`: one field per relevant Tk variable. -/
structure Config where
  index_path : Str
  input_files : Str
  input_files2 : Str
  output_dir : Str
  sample_name : Str
  threads : Nat
  preset_mode : Preset
  alignment_mode : AMode
  dta_mode : Bool
  strand_specific : Bool
  strand_direction : SDir
  batch_mode : Bool
  batch_input_dir : Str
  hisat2_path : Str
  samtools_path : Str
deriving DecidableEq, Repr

/-- `validate_inputs` (lines 509-531): checks that the required fields are
non-empty; shows an error dialog and returns false on the first missing one.
It touches no file. -/
def validate_inputs (c : Config) : Bool :=
  if c.index_path = [] then false
  else if c.batch_mode then
    if c.batch_input_dir = [] then false
    else if c.output_dir = [] then false
    else true
  else if c.input_files = [] then false
  else if c.alignment_mode = AMode.paired ∧ c.input_files2 = [] then false
  else if c.output_dir = [] then false
  else true

/-- Output base name (lines 579-582): the explicit sample-name override if
set, else the stem of the first input file with `.fastq`/`.fq` removed. -/
def baseNameOf (c : Config) : Str :=
  if c.sample_name ≠ [] then c.sample_name
  else replaceAll (str ".fq") [] (replaceAll (str ".fastq") [] (pathStem c.input_files))

/-- The SAM output path `os.path.join(output_dir, f"{base_name}.sam")`
(line 583). -/
def samPath (c : Config) : Str :=
  c.output_dir ++ '/' :: (baseNameOf c ++ str ".sam")

/-- The strandness elements appended by lines 595-600: one element holding
selector and value if strand-specific mode is on and the direction is `fr`
or `rf`; nothing in every other case (in particular for the initial
direction value `unstranded`). -/
def strandArgs (b : Bool) (d : SDir) : List Str :=
  if b then
    match d with
    | .fr => [str "--rna-strandness FR"]
    | .rf => [str "--rna-strandness RF"]
    | .unstranded => []
  else []

/-- The HISAT2 command list built in `run_single_alignment` (lines 586-609):
note that each selector and its value form a single list element, that the
`dta` element is the empty string when DTA mode is off, and that the
strandness element is appended only for the directions `fr` and `rf`. -/
def buildCmd (c : Config) : List Str :=
  ([c.hisat2_path,
    str "-x " ++ c.index_path,
    str "-p " ++ natToStr c.threads,
    str "--" ++ presetName c.preset_mode,
    (if c.dta_mode then str "--dta" else [])] ++
   strandArgs c.strand_specific c.strand_direction ++
   (if c.alignment_mode = AMode.single then [str "-U " ++ c.input_files]
    else [str "-1 " ++ c.input_files ++ str " -2 " ++ c.input_files2])) ++
  [str "-S " ++ samPath c]

/-- A filesystem side effect performed by the Runner before or during a run. -/
inductive FsOp where
  | makedirs (dir : Str)
deriving DecidableEq, Repr

/-- The filesystem operations performed by `run_alignment` in single-sample
mode up to process launch (lines 533-550 and 566-576): nothing when a run is
already active or validation fails; otherwise `os.makedirs(output_dir)`. -/
def run_alignment_fsOps (c : Config) (running : Bool) : List FsOp :=
  if running then []
  else if validate_inputs c then [FsOp.makedirs c.output_dir]
  else []

/-! ## Paired-file grouping (`group_paired_files`, lines 678-706) -/

/-- Lexicographic comparison of Python strings by code point
(the order used by `sorted`). -/
def strLe : Str → Str → Bool
  | [], _ => true
  | _ :: _, [] => false
  | a :: as, b :: bs =>
    if a.toNat < b.toNat then true
    else if b.toNat < a.toNat then false
    else strLe as bs

/-- Insert into a sorted list of strings. -/
def insertSorted (x : Str) : List Str → List Str
  | [] => [x]
  | y :: ys => if strLe x y then x :: y :: ys else y :: insertSorted x ys

/-- `sorted(files)` on a list of path strings. -/
def sortStrings : List Str → List Str
  | [] => []
  | x :: xs => insertSorted x (sortStrings xs)

/-- A unit of work: a sample name and its source file paths. -/
structure Sample where
  name : Str
  files : List Str
deriving DecidableEq, Repr

/-- The mate-marker stripping applied to the first file of a candidate pair
(line 692): four `replace` calls removing `_R1`, `.1`, `.fastq`, `.fq`. -/
def strip1 (f : Str) : Str :=
  replaceAll (str ".fq") []
    (replaceAll (str ".fastq") []
      (replaceAll (str ".1") []
        (replaceAll (str "_R1") [] f)))

/-- The mate-marker stripping applied to the second file of a candidate pair
(line 693). -/
def strip2 (f : Str) : Str :=
  replaceAll (str ".fq") []
    (replaceAll (str ".fastq") []
      (replaceAll (str ".2") []
        (replaceAll (str "_R2") [] f)))

/-- The sample name derived from the first file of a pair (line 696):
stem of the path, then `replace` removing `_R1` and `.1`. -/
def pairSampleName (f : Str) : Str :=
  replaceAll (str ".1") [] (replaceAll (str "_R1") [] (pathStem f))

/-- The pairing loop of `group_paired_files` (lines 685-706) on the sorted
file list: walk adjacent pairs, pair them when the stripped names agree,
otherwise log a warning for the first file and retry from the next one; a
final odd file gets an unpaired-file warning. -/
def pairLoop : List Str → List Sample × List LogEntry
  | [] => ([], [])
  | [f] => ([], [(str "Unpaired file: " ++ f, Tag.warning)])
  | f1 :: f2 :: rest =>
    if strip1 f1 = strip2 f2 then
      let r := pairLoop rest
      (⟨pairSampleName f1, [f1, f2]⟩ :: r.1, r.2)
    else
      let r := pairLoop (f2 :: rest)
      (r.1, (str "Could not pair file: " ++ f1, Tag.warning) :: r.2)

/-- `group_paired_files` (lines 678-706): sort the candidate paths, then run
the adjacent-pairing loop; returns the samples and the warning log entries. -/
def group_paired_files (files : List Str) : List Sample × List LogEntry :=
  pairLoop (sortStrings files)

/-! ## The SAM-to-BAM conversion chain (`convert_to_bam` method, lines 708-744) -/

/-- Filesystem contents, as the list of files that exist. -/
abbrev FileSys := List Str

/-- Remove a path (`os.remove`). -/
def removeFile (p : Str) (fs : FileSys) : FileSys :=
  fs.filter fun q => decide (q ≠ p)

/-- Rename a path (`os.rename`). -/
def renameFile (oldName newName : Str) (fs : FileSys) : FileSys :=
  fs.map fun q => if q = oldName then newName else q

/-- Result of the conversion chain: the filesystem afterwards and the log. -/
structure ConvResult where
  fs : FileSys
  logs : List LogEntry
deriving DecidableEq, Repr

/-- The body of the `convert_to_bam` method (lines 708-744). `viewOk` and
`sortOk` are the success of the two samtools invocations, which are run with
`check=True`: a failing step raises `CalledProcessError`, jumping to the
`except` block, which only logs a conversion error. A succeeding `view` step
creates the `.bam` file; a succeeding `sort` step creates the sorted file;
only after both succeed are the SAM and intermediate BAM removed and the
sorted artifact renamed. -/
def convert_to_bam_method (fs : FileSys) (samP : Str) (viewOk sortOk : Bool) :
    ConvResult :=
  let bamP := replaceAll (str ".sam") (str ".bam") samP
  let sortedBase := replaceAll (str ".bam") [] bamP
  let headerLogs : List LogEntry :=
    [(str "Converting to sorted BAM", Tag.info),
     (str "Command: samtools view", Tag.command),
     (str "Command: samtools sort", Tag.command)]
  if viewOk = false then
    { fs := fs
      logs := headerLogs ++ [(str "Error converting to BAM: ", Tag.error)] }
  else
    let fs1 := bamP :: fs
    if sortOk = false then
      { fs := fs1
        logs := headerLogs ++ [(str "Error converting to BAM: ", Tag.error)] }
    else
      let sortedFile := sortedBase ++ str ".sorted.bam"
      let fs2 := sortedFile :: fs1
      let fs3 := removeFile samP fs2
      let fs4 := removeFile bamP fs3
      let fs5 := renameFile sortedFile (sortedBase ++ str ".bam") fs4
      { fs := fs5
        logs := headerLogs ++ [(str "BAM conversion completed successfully", Tag.success)] }

/-! ## Attribute shadowing (`self.convert_to_bam`, lines 106 and 708) -/

/-- A value stored in the instance dictionary of the `HISAT2GUI` object:
the Tk variables assigned in `__init__` and the bookkeeping fields. -/
inductive Attr where
  | booleanVar (value : Bool)
  | stringVar (value : Str)
  | intVar (value : Nat)
  | noneVal
deriving DecidableEq, Repr

/-- The instance attributes assigned during `__init__` (lines 59-60 and
95-108; the Tk variable assignments run inside `create_alignment_tab`).
Widget attributes are omitted: none of them is named `convert_to_bam`.
`convertFlag` is the current value of the convert-to-BAM checkbox
(initially true, line 106). -/
def instanceAttrs (convertFlag : Bool) : List (String × Attr) :=
  [("running", .booleanVar false),
   ("process", .noneVal),
   ("index_path", .stringVar []),
   ("input_files", .stringVar []),
   ("input_files2", .stringVar []),
   ("output_dir", .stringVar []),
   ("sample_name", .stringVar []),
   ("threads", .intVar 4),
   ("preset_mode", .stringVar (str "sensitive")),
   ("alignment_mode", .stringVar (str "single")),
   ("dta_mode", .booleanVar false),
   ("strand_specific", .booleanVar false),
   ("strand_direction", .stringVar (str "unstranded")),
   ("convert_to_bam", .booleanVar convertFlag),
   ("batch_mode", .booleanVar false),
   ("batch_input_dir", .stringVar [])]

/-- The methods defined on the `HISAT2GUI` class. -/
def classMethodNames : List String :=
  ["__init__", "create_alignment_tab", "create_index_selection",
   "create_input_selection", "create_output_selection",
   "create_options_selection", "create_run_buttons", "create_output_console",
   "create_index_tab", "create_settings_tab", "create_status_bar",
   "create_footer", "create_tooltips", "add_tooltip", "toggle_batch_mode",
   "toggle_strand_specific", "update_input_fields", "browse_index",
   "browse_input_file", "browse_input_file2", "browse_output_dir",
   "browse_batch_dir", "browse_fasta", "browse_index_output", "browse_hisat2",
   "browse_samtools", "find_hisat2", "find_samtools", "validate_inputs",
   "run_alignment", "_run_alignment_thread", "run_single_alignment",
   "run_batch_alignment", "group_paired_files", "convert_to_bam",
   "build_index", "_build_index_thread", "log_message",
   "log_message_to_index", "stop_alignment", "show_about"]

/-- What `self.<name>` resolves to: Python looks in the instance dictionary
first, then falls back to the class body. -/
inductive Resolved where
  | instanceAttr (a : Attr)
  | classMethod
  | missing
deriving DecidableEq, Repr

/-- Attribute resolution on the `HISAT2GUI` object. -/
def resolveAttr (attrs : List (String × Attr)) (name : String) : Resolved :=
  match attrs.lookup name with
  | some a => .instanceAttr a
  | none => if name ∈ classMethodNames then .classMethod else .missing

/-- Whether a stored attribute value can be called like a function:
Tk variables and `None` cannot. -/
def attrCallable : Attr → Bool := fun _ => false

/-- What happens in `run_single_alignment` after the aligner exits with
status 0 (lines 631-643). -/
inductive ConvStep where
  | chainInvoked
  | typeErrorCaught
  | skipped
  | attributeError
deriving DecidableEq, Repr

/-- Lines 631-643: on exit status 0, evaluate `self.convert_to_bam.get()`;
when truthy, evaluate the call `self.convert_to_bam(sam_path)`. Whatever the
name resolves to is what gets called; calling a non-callable raises
`TypeError`, which the surrounding `try` (lines 615-643) catches and logs as
an error, so the conversion chain is only entered if the name resolves to
something callable. -/
def afterAlignmentExitZero (attrs : List (String × Attr)) : ConvStep :=
  match resolveAttr attrs "convert_to_bam" with
  | .instanceAttr (.booleanVar b) =>
    if b then
      match resolveAttr attrs "convert_to_bam" with
      | .classMethod => .chainInvoked
      | .instanceAttr a => if attrCallable a then .chainInvoked else .typeErrorCaught
      | .missing => .attributeError
    else .skipped
  | .classMethod => .chainInvoked
  | _ => .attributeError

/-- Number of samtools processes the post-alignment step launches. -/
def samtoolsInvocations : ConvStep → Nat
  | .chainInvoked => 2
  | _ => 0

/-! ## Worker and process bookkeeping (`run_alignment`, `build_index`,
`stop_alignment`) -/

/-- Shared state of the application: the `running` flag (lines 59, 541,
562, 817) and the number of live external processes spawned through the
alignment path and through the index-build path. The flag and the
processes are separate pieces of state: `terminate()` only requests
termination, so a process can outlive a cleared flag. -/
structure AppState where
  running : Bool
  alignProcs : Nat
  indexProcs : Nat
deriving DecidableEq, Repr

/-- The state at startup (lines 59-60): not running, no processes. -/
def initState : AppState := ⟨false, 0, 0⟩

/-- Clicking Run Alignment (lines 533-550): refused while `running` is set
(the handler returns before touching anything); otherwise `running` is set
and the worker launches one aligner process. -/
def startAlignEv (s : AppState) : AppState :=
  if s.running then s
  else { running := true, alignProcs := s.alignProcs + 1, indexProcs := s.indexProcs }

/-- One live aligner process exits — naturally, or eventually after a
termination request (line 629, `process.wait()` returning). The `running`
flag is untouched by the exit itself. -/
def procExitEv (s : AppState) : AppState :=
  { running := s.running, alignProcs := s.alignProcs - 1, indexProcs := s.indexProcs }

/-- The `finally` block of an alignment worker (lines 561-563) runs after
that worker's own process has exited: it clears the shared `running` flag —
also when a newer run has set the flag again in the meantime. -/
def workerDoneEv (s : AppState) : AppState :=
  { running := false, alignProcs := s.alignProcs, indexProcs := s.indexProcs }

/-- Clicking Stop (lines 814-819) while a run is active and the shared
process handle is set (which holds in every state where this event is
exercised below): the handler clears `running` and sends the live process a
termination request. The process itself stays alive until it exits
(`procExitEv`); nothing else changes. -/
def stopEv (s : AppState) : AppState :=
  if s.running then
    { running := false, alignProcs := s.alignProcs, indexProcs := s.indexProcs }
  else s

/-- Clicking Build Index with both fields filled (lines 746-765): the handler
checks only that the FASTA and base-name fields are non-empty, then always
spawns the build thread, which launches one `hisat2-build` process. It
neither checks nor sets the `running` flag. -/
def startIndexEv (s : AppState) : AppState :=
  { running := s.running, alignProcs := s.alignProcs, indexProcs := s.indexProcs + 1 }

/-- One index-build process exits (lines 786-796); the build worker never
touches the `running` flag. -/
def finishIndexEv (s : AppState) : AppState :=
  { running := s.running, alignProcs := s.alignProcs, indexProcs := s.indexProcs - 1 }

/-- The states the application can reach through its event handlers. -/
inductive Reachable : AppState → Prop
  | init : Reachable initState
  | startAlign {s} : Reachable s → Reachable (startAlignEv s)
  | procExit {s} : Reachable s → Reachable (procExitEv s)
  | workerDone {s} : Reachable s → Reachable (workerDoneEv s)
  | stop {s} : Reachable s → Reachable (stopEv s)
  | startIndex {s} : Reachable s → Reachable (startIndexEv s)
  | finishIndex {s} : Reachable s → Reachable (finishIndexEv s)

/-- Total number of live external processes in a state. -/
def totalProcs (s : AppState) : Nat := s.alignProcs + s.indexProcs

/-! ## Streaming, cancellation and outcome classification
(`run_single_alignment` lines 615-643, `run_batch_alignment` lines 667-676,
`stop_alignment` lines 814-819) -/

/-- Outcome classification of one job. The code classifies purely by exit
status (lines 631-638): 0 is reported as success, anything else as a failure
carrying the code. `cancelled` is the classification the specification
additionally names; no branch of `run_single_alignment` produces it. -/
inductive RunClass where
  | completed
  | failed (code : Int)
  | cancelled
deriving DecidableEq, Repr

/-- The read loop (lines 623-627): log each line, then check the shared
`running` flag; on observing it false, terminate the process and break.
`cancelAt = some k` means the flag is observed false at the check following
the `k`-th logged line (0-based); `none` means no stop request arrives.
Returns the logged lines and whether the process was terminated. -/
def readLoop : List Str → Option Nat → List LogEntry × Bool
  | [], _ => ([], false)
  | l :: rest, none =>
    let r := readLoop rest none
    ((l, Tag.info) :: r.1, r.2)
  | l :: rest, some k =>
    if k = 0 then ([(l, Tag.info)], true)
    else
      let r := readLoop rest (some (k - 1))
      ((l, Tag.info) :: r.1, r.2)

/-- Result of one aligner job. -/
structure SingleOutcome where
  logs : List LogEntry
  terminated : Bool
  exitCode : Int
  classification : RunClass
deriving DecidableEq, Repr

/-- One `run_single_alignment` process phase (lines 615-638): stream the
output lines with the cancellation check, wait, then classify by exit code:
0 logs a success message, anything else logs
`Alignment failed with code {returncode}` as an error. `naturalExit` is the
exit status when the process runs to completion; `termExit` the status after
`terminate()`. -/
def runSingleJob (lines : List Str) (cancelAt : Option Nat)
    (naturalExit termExit : Int) : SingleOutcome :=
  let r := readLoop lines cancelAt
  let rc := if r.2 then termExit else naturalExit
  if rc = 0 then
    { logs := r.1 ++ [(str "Alignment completed successfully", Tag.success)]
      terminated := r.2
      exitCode := rc
      classification := RunClass.completed }
  else
    { logs := r.1 ++ [(str "Alignment failed with code ", Tag.error)]
      terminated := r.2
      exitCode := rc
      classification := RunClass.failed rc }

/-- The batch loop (lines 667-676): before each sample, `if not self.running:
break`; then the sample is run. A stop request during sample `j` is modelled
by `cancel = some (j, k)`: that sample observes the flag at line-check `k`,
and because the flag stays false, the loop breaks before every later sample.
Every sample uses output `lines` (the loop logic does not depend on the
text). Returns the (sample, outcome) list of the samples actually started. -/
def runBatchGo (lines : List Str) (naturalExit termExit : Int) :
    List Sample → Option (Nat × Nat) → List (Sample × SingleOutcome)
  | [], _ => []
  | s :: rest, none =>
    (s, runSingleJob lines none naturalExit termExit) :: runBatchGo lines naturalExit termExit rest none
  | s :: rest, some (j, k) =>
    if j = 0 then [(s, runSingleJob lines (some k) naturalExit termExit)]
    else
      (s, runSingleJob lines none naturalExit termExit) ::
        runBatchGo lines naturalExit termExit rest (some (j - 1, k))

/-- `run_batch_alignment` restricted to its loop (lines 667-676). -/
def runBatch (samples : List Sample) (lines : List Str)
    (cancel : Option (Nat × Nat)) (naturalExit termExit : Int) :
    List (Sample × SingleOutcome) :=
  runBatchGo lines naturalExit termExit samples cancel

/-! ## The browse handlers and the missing `re` import
(lines 15-22, 427-434, 469-477) -/

/-- The names bound at module level by the import statements (lines 15-22)
and the class statement: `tkinter as tk`, `ttk`, `filedialog`, `messagebox`,
`scrolledtext`, `subprocess`, `os`, `Path`, `threading`, `datetime`,
`webbrowser`, `HISAT2GUI`. The module `re` is never imported. -/
def moduleTopLevelNames : List String :=
  ["tk", "ttk", "filedialog", "messagebox", "scrolledtext", "subprocess",
   "os", "Path", "threading", "datetime", "webbrowser", "HISAT2GUI"]

/-- Evaluating a global name: defined names resolve, others raise
`NameError`. -/
def evalGlobalName (n : String) : Option Unit :=
  if n ∈ moduleTopLevelNames then some () else none

/-- Result of running an event handler body. -/
inductive PyOutcome where
  | ok (fieldValue : Str)
  | nameError
deriving DecidableEq, Repr

/-- `re.sub(r'\.\d+\.ht2$', '', path)`: strip a trailing `.<digits>.ht2`. -/
def stripHt2Suffix (p : Str) : Str :=
  let r := p.reverse
  if begins (str "2th.") r then
    let afterExt := r.drop 4
    let digits := afterExt.takeWhile fun c => c.isDigit
    if digits ≠ [] ∧ begins ['.'] (afterExt.drop digits.length) then
      (afterExt.drop (digits.length + 1)).reverse
    else p
  else p

/-- `browse_index` (lines 427-434): when the dialog returns a path, the body
evaluates `re.sub(...)` before assigning to the index-path field; evaluating
the name `re` comes first, and an unresolvable name raises `NameError`.
Returns the new value of the index-path field, or the error. -/
def browse_index (dialogSelection : Option Str) (indexField : Str) : PyOutcome :=
  match dialogSelection with
  | none => .ok indexField
  | some path =>
    match evalGlobalName "re" with
    | none => .nameError
    | some _ => .ok (stripHt2Suffix path)

/-- `browse_index_output` (lines 469-477): same body shape as
`browse_index`, writing to the index base-name field. -/
def browse_index_output (dialogSelection : Option Str) (baseField : Str) : PyOutcome :=
  match dialogSelection with
  | none => .ok baseField
  | some path =>
    match evalGlobalName "re" with
    | none => .nameError
    | some _ => .ok (stripHt2Suffix path)

/-! ## Supporting lemmas for the claim theorems -/

theorem begins_length_le {pat s : Str} (h : begins pat s = true) :
    pat.length ≤ s.length := by
  induction pat generalizing s with
  | nil => simp
  | cons p ps ih =>
    cases s with
    | nil => simp [begins] at h
    | cons c cs =>
      simp only [begins, Bool.and_eq_true] at h
      simpa using ih h.2

theorem replaceAll_remove_length (pat : Str) (s : Str) :
    ∃ k, s.length = (replaceAll pat [] s).length + pat.length * k := by
  generalize hn : s.length = n
  induction n using Nat.strong_induction_on generalizing s with
  | _ n ih =>
    cases s with
    | nil =>
      refine ⟨0, ?_⟩
      rw [replaceAll_nil]
      simp only [List.length_nil] at hn ⊢
      omega
    | cons c rest =>
      by_cases h : 0 < pat.length ∧ begins pat (c :: rest) = true
      · have hp := h.1
        have hlen : pat.length ≤ (c :: rest).length := begins_length_le h.2
        have hdl : ((c :: rest).drop pat.length).length =
            (c :: rest).length - pat.length := List.length_drop _ _
        rw [replaceAll, dif_pos h]
        obtain ⟨k, hk⟩ := ih ((c :: rest).drop pat.length).length
          (by rw [hdl, ← hn]; simp only [List.length_cons]; omega) _ rfl
        refine ⟨k + 1, ?_⟩
        rw [List.nil_append]
        have hmul : pat.length * (k + 1) = pat.length * k + pat.length := by ring
        simp only [List.length_cons] at hn hlen hdl
        omega
      · rw [replaceAll, dif_neg h]
        obtain ⟨k, hk⟩ := ih rest.length
          (by rw [← hn]; simp only [List.length_cons]; omega) _ rfl
        refine ⟨k, ?_⟩
        simp only [List.length_cons] at hn ⊢
        omega

theorem readLoop_terminated :
    ∀ (lines : List Str) (k : Nat), k < lines.length →
      (readLoop lines (some k)).2 = true := by
  intro lines
  induction lines with
  | nil => intro k hk; simp at hk
  | cons l rest ih =>
    intro k hk
    by_cases h0 : k = 0
    · subst h0; rw [readLoop]; simp
    · rw [readLoop, if_neg h0]
      exact ih (k - 1) (by simp only [List.length_cons] at hk; omega)

/-! ## Claim theorems -/

/-- C1 (code_bug): a completed alignment run with the convert-to-sorted-BAM
option enabled never invokes the conversion utility. The instance attribute
`convert_to_bam` assigned in `__init__` (a `BooleanVar`) shadows the class
method of the same name, so the call `self.convert_to_bam(sam_path)` on
line 636 resolves to the Tk variable, which is not callable: a `TypeError`
is raised and caught, zero samtools processes are launched, and no
deletion or rename happens. -/
theorem c1_convert_shadowed_never_invoked :
    afterAlignmentExitZero (instanceAttrs true) = ConvStep.typeErrorCaught ∧
    samtoolsInvocations (afterAlignmentExitZero (instanceAttrs true)) = 0 := by
  decide

/-- C2 counterexample: two concurrent external processes are reachable along
two distinct routes, refuting the claimed at-most-one-process invariant.
Route one: start an alignment, then click Build Index with the FASTA and
base-name fields filled — `build_index` never consults the `running` flag,
so an aligner and an index build run side by side. Route two: start an
alignment, click Stop — which clears `running` but only sends the live
process a termination request — and click Run again before that process has
exited: the guard sees a cleared flag and spawns a second aligner process
while the first is still alive. -/
theorem c2_two_processes_reachable :
    Reachable { running := true, alignProcs := 1, indexProcs := 1 } ∧
    Reachable { running := true, alignProcs := 2, indexProcs := 0 } ∧
    ¬ totalProcs { running := true, alignProcs := 1, indexProcs := 1 } ≤ 1 ∧
    ¬ totalProcs { running := true, alignProcs := 2, indexProcs := 0 } ≤ 1 := by
  refine ⟨?_, ?_, by decide, by decide⟩
  · have h := Reachable.startIndex (Reachable.startAlign Reachable.init)
    have he : startIndexEv (startAlignEv initState) =
        { running := true, alignProcs := 1, indexProcs := 1 } := by decide
    rwa [he] at h
  · have h := Reachable.startAlign
      (Reachable.stop (Reachable.startAlign Reachable.init))
    have he : startAlignEv (stopEv (startAlignEv initState)) =
        { running := true, alignProcs := 2, indexProcs := 0 } := by decide
    rwa [he] at h

/-- C2 amended: the only serialization the program performs is the early
return of `run_alignment` (lines 535-536): clicking Run Alignment changes
nothing at all — no flag write, no worker, no process — exactly when the
`running` flag is set. This guard does not give mutual exclusion of
external processes: `build_index` spawns unconditionally, and
`stop_alignment` clears the flag while its terminated process may still be
alive, so concurrent external processes remain reachable (see the
counterexample). -/
theorem c2_amended_run_guard (s : AppState) :
    startAlignEv s = s ↔ s.running = true := by
  constructor
  · intro h
    by_cases hr : s.running = true
    · exact hr
    · exfalso
      rw [startAlignEv, if_neg hr] at h
      have := congrArg AppState.alignProcs h
      simp at this
  · intro h
    rw [startAlignEv, if_pos h]

/-- C2 witness: the amended theorem applied at a concrete state with the
flag set. -/
theorem c2_amended_witness :
    startAlignEv { running := true, alignProcs := 1, indexProcs := 0 } =
      { running := true, alignProcs := 1, indexProcs := 0 } :=
  (c2_amended_run_guard { running := true, alignProcs := 1, indexProcs := 0 }).mpr rfl

/-- C3 counterexample: in a two-sample batch where a stop request is observed
while the first sample streams its output, the terminated process exits -15
and the code classifies the run by exit code as a failure (logging
`Alignment failed with code ...` as an error); no `Cancelled` classification
is produced, refuting the claimed classification (the other two claimed
effects — termination and no further sample — do hold). -/
theorem c3_cancel_classified_failed :
    (runBatch [⟨str "s1", [str "s1.fastq"]⟩, ⟨str "s2", [str "s2.fastq"]⟩]
        [str "line1", str "line2"] (some (0, 0)) 0 (-15)).map
        (fun p => p.2.classification) = [RunClass.failed (-15)] ∧
    RunClass.failed (-15) ≠ RunClass.cancelled ∧
    (runBatch [⟨str "s1", [str "s1.fastq"]⟩, ⟨str "s2", [str "s2.fastq"]⟩]
        [str "line1", str "line2"] (some (0, 0)) 0 (-15)).map Prod.fst =
      [⟨str "s1", [str "s1.fastq"]⟩] := by
  decide

/-- C3 amended: when a cancellation request is observed while output lines of
batch sample `j` are being read, the live process is terminated and no later
sample of the batch is started; however the run is classified by its exit
code as `failed` (reported as an error), not as a dedicated cancelled
outcome — the only cancellation-specific report is the warning logged by
`stop_alignment` itself. -/
theorem c3_amended_cancel_terminates_and_halts_batch
    (pre : List Sample) (s : Sample) (post : List Sample)
    (lines : List Str) (k : Nat) (naturalExit termExit : Int)
    (hk : k < lines.length) (hte : termExit ≠ 0) :
    runBatch (pre ++ s :: post) lines (some (pre.length, k)) naturalExit termExit =
      pre.map (fun t => (t, runSingleJob lines none naturalExit termExit)) ++
        [(s, runSingleJob lines (some k) naturalExit termExit)] ∧
    (runSingleJob lines (some k) naturalExit termExit).terminated = true ∧
    (runSingleJob lines (some k) naturalExit termExit).classification =
      RunClass.failed termExit := by
  have hterm := readLoop_terminated lines k hk
  refine ⟨?_, ?_, ?_⟩
  · induction pre with
    | nil =>
      rw [List.nil_append, List.map_nil, List.nil_append, runBatch, runBatchGo]
      simp
    | cons p pre' ih =>
      simp only [runBatch] at ih ⊢
      rw [List.cons_append, runBatchGo, if_neg (by simp)]
      simp only [List.length_cons, Nat.add_sub_cancel, List.map_cons, List.cons_append]
      rw [ih]
  · simp [runSingleJob, hterm, hte]
  · simp [runSingleJob, hterm, hte]

/-- C3 witness: the amended theorem at a concrete two-sample batch with the
stop request observed at the second line of the second sample. -/
theorem c3_amended_witness :
    (runSingleJob [str "la", str "lb"] (some 1) 0 (-15)).terminated = true ∧
    (runSingleJob [str "la", str "lb"] (some 1) 0 (-15)).classification =
      RunClass.failed (-15) :=
  ⟨(c3_amended_cancel_terminates_and_halts_batch
      [⟨str "s1", [str "s1.fastq"]⟩] ⟨str "s2", [str "s2.fastq"]⟩ []
      [str "la", str "lb"] 1 0 (-15) (by decide) (by decide)).2.1,
   (c3_amended_cancel_terminates_and_halts_batch
      [⟨str "s1", [str "s1.fastq"]⟩] ⟨str "s2", [str "s2.fastq"]⟩ []
      [str "la", str "lb"] 1 0 (-15) (by decide) (by decide)).2.2⟩

/-- C4 counterexample: a configuration declaring single mode while both input
file fields are filled (a two-file sample) is not rejected:
`validate_inputs` accepts it and the run proceeds to create the output
directory, refuting the single-mode half of the claim (the second file is
silently ignored by the command builder). -/
theorem c4_single_mode_two_files_not_rejected :
    validate_inputs
        { index_path := str "idx", input_files := str "a.fastq",
          input_files2 := str "b.fastq", output_dir := str "out",
          sample_name := str "s", threads := 4, preset_mode := .sensitive,
          alignment_mode := .single, dta_mode := false,
          strand_specific := false, strand_direction := .unstranded,
          batch_mode := false, batch_input_dir := [],
          hisat2_path := str "hisat2", samtools_path := str "samtools" } = true ∧
    run_alignment_fsOps
        { index_path := str "idx", input_files := str "a.fastq",
          input_files2 := str "b.fastq", output_dir := str "out",
          sample_name := str "s", threads := 4, preset_mode := .sensitive,
          alignment_mode := .single, dta_mode := false,
          strand_specific := false, strand_direction := .unstranded,
          batch_mode := false, batch_input_dir := [],
          hisat2_path := str "hisat2", samtools_path := str "samtools" }
        false ≠ [] := by
  decide

/-- C4 amended: in the non-batch path, a configuration declaring paired mode
whose sample has only one file (empty second-file field) always fails
validation — before the run starts and before any filesystem operation; the
converse direction (single mode with two files supplied) is not rejected. -/
theorem c4_amended_paired_missing_mate_rejected (c : Config)
    (hb : c.batch_mode = false) (hm : c.alignment_mode = AMode.paired)
    (h2 : c.input_files2 = []) :
    validate_inputs c = false ∧ run_alignment_fsOps c false = [] := by
  have hv : validate_inputs c = false := by
    unfold validate_inputs
    rw [hb, hm, h2]
    simp
  exact ⟨hv, by simp [run_alignment_fsOps, hv]⟩

/-- C4 witness: the amended theorem at a concrete paired-mode configuration
with an empty second-file field. -/
theorem c4_amended_witness :
    validate_inputs
        { index_path := str "idx", input_files := str "a_R1.fastq",
          input_files2 := [], output_dir := str "out",
          sample_name := str "s", threads := 4, preset_mode := .sensitive,
          alignment_mode := .paired, dta_mode := false,
          strand_specific := false, strand_direction := .unstranded,
          batch_mode := false, batch_input_dir := [],
          hisat2_path := str "hisat2", samtools_path := str "samtools" } = false ∧
    run_alignment_fsOps
        { index_path := str "idx", input_files := str "a_R1.fastq",
          input_files2 := [], output_dir := str "out",
          sample_name := str "s", threads := 4, preset_mode := .sensitive,
          alignment_mode := .paired, dta_mode := false,
          strand_specific := false, strand_direction := .unstranded,
          batch_mode := false, batch_input_dir := [],
          hisat2_path := str "hisat2", samtools_path := str "samtools" }
        false = [] :=
  c4_amended_paired_missing_mate_rejected _ rfl rfl rfl

/-- A sample name that follows a consistent naming convention: it contains
none of the substrings the pairing code strips or compares on, so the
`replace` calls of the grouping loop leave it intact. -/
def cleanName (s : Str) : Bool :=
  !occursIn (str "_R1") s && !occursIn (str "_R2") s &&
  !occursIn (str ".1") s && !occursIn (str ".2") s &&
  !occursIn (str ".fastq") s && !occursIn (str ".fq") s

/-- The directory listing of consistently named paired files: for each name
`s`, the two mates `s_R1.fastq` and `s_R2.fastq`. -/
def pairFiles : List Str → List Str
  | [] => []
  | s :: rest => (s ++ str "_R1.fastq") :: (s ++ str "_R2.fastq") :: pairFiles rest

theorem cleanName_parts {s : Str} (h : cleanName s = true) :
    occursIn (str "_R1") s = false ∧ occursIn (str "_R2") s = false ∧
    occursIn (str ".1") s = false ∧ occursIn (str ".2") s = false ∧
    occursIn (str ".fastq") s = false ∧ occursIn (str ".fq") s = false := by
  simp only [cleanName, Bool.and_eq_true, Bool.not_eq_true'] at h
  exact ⟨h.1.1.1.1.1, h.1.1.1.1.2, h.1.1.1.2, h.1.1.2, h.1.2, h.2⟩

theorem strip1_clean {s : Str} (h : cleanName s = true) :
    strip1 (s ++ str "_R1.fastq") = s := by
  obtain ⟨hR1, hR2, h1, h2, hfastq, hfq⟩ := cleanName_parts h
  unfold strip1
  rw [replaceAll_append_of_clean _ hR1 (by decide)]
  rw [show replaceAll (str "_R1") [] (str "_R1.fastq") = str ".fastq" from by
    rw [show str "_R1.fastq" = str "_R1" ++ str ".fastq" from by decide,
      replaceAll_head_match _ _ _ (by decide), List.nil_append,
      replaceAll_of_not_occurs _ (by decide)]]
  rw [replaceAll_append_of_clean _ h1 (by decide)]
  rw [replaceAll_of_not_occurs ([] : Str)
    (show occursIn (str ".1") (str ".fastq") = false from by decide)]
  rw [replaceAll_append_of_clean _ hfastq (by decide)]
  rw [show replaceAll (str ".fastq") [] (str ".fastq") = [] from by
    have := replaceAll_head_match (str ".fastq") [] [] (by decide)
    simpa [replaceAll_nil] using this]
  rw [List.append_nil]
  exact replaceAll_of_not_occurs _ hfq

theorem strip2_clean {s : Str} (h : cleanName s = true) :
    strip2 (s ++ str "_R2.fastq") = s := by
  obtain ⟨hR1, hR2, h1, h2, hfastq, hfq⟩ := cleanName_parts h
  unfold strip2
  rw [replaceAll_append_of_clean _ hR2 (by decide)]
  rw [show replaceAll (str "_R2") [] (str "_R2.fastq") = str ".fastq" from by
    rw [show str "_R2.fastq" = str "_R2" ++ str ".fastq" from by decide,
      replaceAll_head_match _ _ _ (by decide), List.nil_append,
      replaceAll_of_not_occurs _ (by decide)]]
  rw [replaceAll_append_of_clean _ h2 (by decide)]
  rw [replaceAll_of_not_occurs ([] : Str)
    (show occursIn (str ".2") (str ".fastq") = false from by decide)]
  rw [replaceAll_append_of_clean _ hfastq (by decide)]
  rw [show replaceAll (str ".fastq") [] (str ".fastq") = [] from by
    have := replaceAll_head_match (str ".fastq") [] [] (by decide)
    simpa [replaceAll_nil] using this]
  rw [List.append_nil]
  exact replaceAll_of_not_occurs _ hfq

theorem insertSorted_length (x : Str) :
    ∀ l : List Str, (insertSorted x l).length = l.length + 1 := by
  intro l
  induction l with
  | nil => rfl
  | cons y ys ih =>
    rw [insertSorted]
    by_cases h : strLe x y
    · rw [if_pos h]; rfl
    · rw [if_neg h, List.length_cons, ih, List.length_cons]

theorem sortStrings_length : ∀ l : List Str, (sortStrings l).length = l.length := by
  intro l
  induction l with
  | nil => rfl
  | cons x xs ih =>
    rw [sortStrings, insertSorted_length, ih, List.length_cons]

theorem pairFiles_length : ∀ names : List Str, (pairFiles names).length = 2 * names.length := by
  intro names
  induction names with
  | nil => rfl
  | cons s rest ih =>
    rw [pairFiles, List.length_cons, List.length_cons, ih, List.length_cons]
    omega

theorem pairLoop_pairs :
    ∀ names : List Str, (∀ s ∈ names, cleanName s = true) →
      pairLoop (pairFiles names) =
        (names.map (fun s =>
            ⟨pairSampleName (s ++ str "_R1.fastq"),
             [s ++ str "_R1.fastq", s ++ str "_R2.fastq"]⟩), []) := by
  intro names
  induction names with
  | nil => intro _; rfl
  | cons s rest ih =>
    intro h
    have hs : cleanName s = true := h s (List.mem_cons_self _ _)
    have hcond : strip1 (s ++ str "_R1.fastq") = strip2 (s ++ str "_R2.fastq") := by
      rw [strip1_clean hs, strip2_clean hs]
    rw [pairFiles, pairLoop, if_pos hcond,
      ih (fun t ht => h t (List.mem_cons_of_mem _ ht)), List.map_cons]

/-- C5: for a directory of `N` consistently named paired files — the sorted
candidate list is `s_R1.fastq, s_R2.fastq` for each sample name `s`, with
names free of the marker substrings the code strips — `group_paired_files`
produces exactly `N/2` samples, each holding two file paths, and emits no
warning log entries. -/
theorem c5_consistent_pairs_all_matched (files names : List Str)
    (hclean : names.all cleanName = true)
    (hsorted : sortStrings files = pairFiles names) :
    (group_paired_files files).1.length * 2 = files.length ∧
    (∀ smp ∈ (group_paired_files files).1, smp.files.length = 2) ∧
    (group_paired_files files).2 = [] := by
  have hc : ∀ s ∈ names, cleanName s = true :=
    fun s hsm => List.all_eq_true.mp hclean s hsm
  have hg : group_paired_files files =
      (names.map (fun s =>
          ⟨pairSampleName (s ++ str "_R1.fastq"),
           [s ++ str "_R1.fastq", s ++ str "_R2.fastq"]⟩), []) := by
    rw [group_paired_files, hsorted, pairLoop_pairs names hc]
  have hlen : files.length = 2 * names.length := by
    rw [← sortStrings_length files, hsorted, pairFiles_length]
  refine ⟨?_, ?_, ?_⟩
  · rw [hg, hlen]
    simp only [List.length_map]
    omega
  · rw [hg]
    intro smp hsmp
    simp only [List.mem_map] at hsmp
    obtain ⟨t, -, rfl⟩ := hsmp
    rfl
  · rw [hg]

/-- C5 witness: the theorem at a concrete two-sample directory. -/
theorem c5_witness :
    (group_paired_files (pairFiles [str "dirA/sampleA", str "dirA/sampleB"])).1.length * 2 =
      (pairFiles [str "dirA/sampleA", str "dirA/sampleB"]).length ∧
    (group_paired_files (pairFiles [str "dirA/sampleA", str "dirA/sampleB"])).2 = [] :=
  ⟨(c5_consistent_pairs_all_matched _ [str "dirA/sampleA", str "dirA/sampleB"]
      (by decide) (by decide)).1,
   (c5_consistent_pairs_all_matched _ [str "dirA/sampleA", str "dirA/sampleB"]
      (by decide) (by decide)).2.2⟩

/-- C6: on the directory `sampleA_R1.fastq, sampleA_R2.fastq,
sampleB_R1.fastq`, the paired-mode grouping yields exactly one sample named
`sampleA` holding both sampleA files, plus exactly one warning-classified
log entry naming `sampleB_R1.fastq`. -/
theorem c6_scenario_sampleA_paired_sampleB_warned :
    group_paired_files
        [str "sampleA_R1.fastq", str "sampleA_R2.fastq", str "sampleB_R1.fastq"] =
      ([⟨str "sampleA", [str "sampleA_R1.fastq", str "sampleA_R2.fastq"]⟩],
       [(str "Unpaired file: " ++ str "sampleB_R1.fastq", Tag.warning)]) := by
  rw [group_paired_files,
    show sortStrings
        [str "sampleA_R1.fastq", str "sampleA_R2.fastq", str "sampleB_R1.fastq"] =
      [str "sampleA_R1.fastq", str "sampleA_R2.fastq", str "sampleB_R1.fastq"] from by
        decide]
  have hA1 : str "sampleA_R1.fastq" = str "sampleA" ++ str "_R1.fastq" := by decide
  have hA2 : str "sampleA_R2.fastq" = str "sampleA" ++ str "_R2.fastq" := by decide
  have hcond : strip1 (str "sampleA_R1.fastq") = strip2 (str "sampleA_R2.fastq") := by
    rw [hA1, hA2, strip1_clean (by decide), strip2_clean (by decide)]
  have hname : pairSampleName (str "sampleA_R1.fastq") = str "sampleA" := by
    unfold pairSampleName pathStem
    rw [show lastComponent (str "sampleA_R1.fastq") = str "sampleA_R1.fastq" from by decide]
    rw [show stem (str "sampleA_R1.fastq") = str "sampleA_R1" from by decide]
    rw [show str "sampleA_R1" = str "sampleA" ++ str "_R1" from by decide]
    rw [replaceAll_append_of_clean _ (by decide) (by decide)]
    rw [show replaceAll (str "_R1") [] (str "_R1") = [] from by
      have := replaceAll_head_match (str "_R1") [] [] (by decide)
      simpa [replaceAll_nil] using this]
    rw [List.append_nil]
    exact replaceAll_of_not_occurs _ (by decide)
  rw [pairLoop, if_pos hcond, hname]
  rw [show pairLoop [str "sampleB_R1.fastq"] =
    ([], [(str "Unpaired file: " ++ str "sampleB_R1.fastq", Tag.warning)]) from rfl]

/-- C7 counterexample: with strand-specific mode enabled but the direction
variable still at its initial value `unstranded` (the checkbox can be ticked
without touching the direction radio buttons), no strandness argument at all
appears in the constructed command, refuting the claim that every
strand-specific configuration carries an FR or RF strandness flag. -/
theorem c7_unstranded_direction_no_flag :
    ({ index_path := str "idx", input_files := str "a.fastq",
       input_files2 := [], output_dir := str "out",
       sample_name := str "s", threads := 4, preset_mode := .sensitive,
       alignment_mode := .single, dta_mode := false,
       strand_specific := true, strand_direction := .unstranded,
       batch_mode := false, batch_input_dir := [],
       hisat2_path := str "hisat2", samtools_path := str "samtools" } : Config).strand_specific
      = true ∧
    (buildCmd
        { index_path := str "idx", input_files := str "a.fastq",
          input_files2 := [], output_dir := str "out",
          sample_name := str "s", threads := 4, preset_mode := .sensitive,
          alignment_mode := .single, dta_mode := false,
          strand_specific := true, strand_direction := .unstranded,
          batch_mode := false, batch_input_dir := [],
          hisat2_path := str "hisat2", samtools_path := str "samtools" }).all
      (fun a => !occursIn (str "--rna-strandness") a) = true := by
  decide

/-- C7 amended: with strand-specific mode enabled, the command carries
`--rna-strandness FR` when the direction is `fr` and `--rna-strandness RF`
when it is `rf`; with the direction at its initial value `unstranded` the
command is identical to the one built with strand-specific mode disabled
(no strandness argument is appended). -/
theorem c7_amended_strand_flag (c : Config) (h : c.strand_specific = true) :
    (c.strand_direction = SDir.fr →
      str "--rna-strandness FR" ∈ buildCmd c) ∧
    (c.strand_direction = SDir.rf →
      str "--rna-strandness RF" ∈ buildCmd c) ∧
    (c.strand_direction = SDir.unstranded →
      buildCmd c = buildCmd { c with strand_specific := false }) := by
  refine ⟨fun hd => ?_, fun hd => ?_, fun hd => ?_⟩ <;>
    simp [buildCmd, strandArgs, samPath, baseNameOf, h, hd]

/-- C7 witness: the amended theorem at a concrete strand-specific
configuration with direction `fr`. -/
theorem c7_amended_witness :
    str "--rna-strandness FR" ∈ buildCmd
      { index_path := str "idx", input_files := str "a.fastq",
        input_files2 := [], output_dir := str "out",
        sample_name := str "s", threads := 4, preset_mode := .sensitive,
        alignment_mode := .single, dta_mode := false,
        strand_specific := true, strand_direction := .fr,
        batch_mode := false, batch_input_dir := [],
        hisat2_path := str "hisat2", samtools_path := str "samtools" } :=
  (c7_amended_strand_flag _ rfl).1 rfl

/-- C9: when the first conversion step (samtools view) succeeds and the
second (samtools sort) fails, the `except` branch only logs a
conversion-specific error: the SAM file is still present, the intermediate
BAM from step one is still present, the sorted artifact does not exist, and
no rename happened. -/
theorem c9_sort_failure_preserves_intermediates (fs : FileSys) (samP : Str)
    (hsam : samP ∈ fs)
    (hns : replaceAll (str ".bam") [] (replaceAll (str ".sam") (str ".bam") samP)
        ++ str ".sorted.bam" ∉ fs) :
    samP ∈ (convert_to_bam_method fs samP true false).fs ∧
    replaceAll (str ".sam") (str ".bam") samP ∈
      (convert_to_bam_method fs samP true false).fs ∧
    replaceAll (str ".bam") [] (replaceAll (str ".sam") (str ".bam") samP)
        ++ str ".sorted.bam" ∉ (convert_to_bam_method fs samP true false).fs ∧
    (str "Error converting to BAM: ", Tag.error) ∈
      (convert_to_bam_method fs samP true false).logs := by
  have hfs : (convert_to_bam_method fs samP true false).fs =
      replaceAll (str ".sam") (str ".bam") samP :: fs := by
    simp [convert_to_bam_method]
  have hlogs : (str "Error converting to BAM: ", Tag.error) ∈
      (convert_to_bam_method fs samP true false).logs := by
    simp [convert_to_bam_method]
  refine ⟨?_, ?_, ?_, hlogs⟩
  · rw [hfs]; exact List.mem_cons_of_mem _ hsam
  · rw [hfs]; exact List.mem_cons_self _ _
  · rw [hfs]
    intro hmem
    rcases List.mem_cons.mp hmem with heq | hmem'
    · obtain ⟨k, hk⟩ := replaceAll_remove_length (str ".bam")
        (replaceAll (str ".sam") (str ".bam") samP)
      have hlen := congrArg List.length heq
      rw [List.length_append] at hlen
      have h11 : (str ".sorted.bam").length = 11 := by decide
      have h4 : (str ".bam").length = 4 := by decide
      rw [h11] at hlen
      rw [h4] at hk
      omega
    · exact hns hmem'

/-- C9 witness: the theorem at a one-file filesystem holding only the SAM
output. -/
theorem c9_witness :
    str "s.sam" ∈ (convert_to_bam_method [str "s.sam"] (str "s.sam") true false).fs ∧
    (str "Error converting to BAM: ", Tag.error) ∈
      (convert_to_bam_method [str "s.sam"] (str "s.sam") true false).logs :=
  ⟨(c9_sort_failure_preserves_intermediates [str "s.sam"] (str "s.sam")
      (List.mem_cons_self _ _)
      (by
        intro hmem
        have h1 : replaceAll (str ".sam") (str ".bam") (str "s.sam") = str "s.bam" := by
          have hb : str "s.sam" = ['s'] ++ str ".sam" := by decide
          rw [hb, replaceAll_append_of_clean _ (by decide) (by decide),
            show replaceAll (str ".sam") (str ".bam") (str ".sam") = str ".bam" from by
              have := replaceAll_head_match (str ".sam") (str ".bam") [] (by decide)
              simpa [replaceAll_nil] using this]
          decide
        have h2 : replaceAll (str ".bam") [] (str "s.bam") = ['s'] := by
          have hb : str "s.bam" = ['s'] ++ str ".bam" := by decide
          rw [hb, replaceAll_append_of_clean _ (by decide) (by decide),
            show replaceAll (str ".bam") [] (str ".bam") = [] from by
              have := replaceAll_head_match (str ".bam") [] [] (by decide)
              simpa [replaceAll_nil] using this]
          decide
        rw [h1, h2] at hmem
        revert hmem
        decide)).1,
   (c9_sort_failure_preserves_intermediates [str "s.sam"] (str "s.sam")
      (List.mem_cons_self _ _)
      (by
        intro hmem
        have h1 : replaceAll (str ".sam") (str ".bam") (str "s.sam") = str "s.bam" := by
          have hb : str "s.sam" = ['s'] ++ str ".sam" := by decide
          rw [hb, replaceAll_append_of_clean _ (by decide) (by decide),
            show replaceAll (str ".sam") (str ".bam") (str ".sam") = str ".bam" from by
              have := replaceAll_head_match (str ".sam") (str ".bam") [] (by decide)
              simpa [replaceAll_nil] using this]
          decide
        have h2 : replaceAll (str ".bam") [] (str "s.bam") = ['s'] := by
          have hb : str "s.bam" = ['s'] ++ str ".bam" := by decide
          rw [hb, replaceAll_append_of_clean _ (by decide) (by decide),
            show replaceAll (str ".bam") [] (str ".bam") = [] from by
              have := replaceAll_head_match (str ".bam") [] [] (by decide)
              simpa [replaceAll_nil] using this]
          decide
        rw [h1, h2] at hmem
        revert hmem
        decide)).2.2.2⟩

/-- C10: selecting any path in `browse_index` or `browse_index_output`
raises `NameError`, because their bodies call `re.sub` while the module
never imports `re` (lines 15-22); the index path and base-name fields are
therefore never updated through these handlers. -/
theorem c10_browse_index_name_error :
    ∀ (path fieldValue : Str),
      browse_index (some path) fieldValue = PyOutcome.nameError ∧
      browse_index_output (some path) fieldValue = PyOutcome.nameError := by
  intro path fieldValue
  have h : evalGlobalName "re" = none := by decide
  exact ⟨by simp [browse_index, h], by simp [browse_index_output, h]⟩

/-! ## Round-trip parsing of the constructed command line (C8) -/

/-- The selector tokens of the constructed command line. -/
def selTokens : List Str :=
  [str "-x", str "-p", str "-U", str "-1", str "-2", str "-S"]

/-- The whitespace tokens of the joined command string
(`" ".join(cmd)` followed by a whitespace split). -/
def cmdTokens (c : Config) : List Str := splitWs (joinSp (buildCmd c))

/-- Token view of the DTA element. -/
def dtaTokens (b : Bool) : List Str := if b then [str "--dta"] else []

/-- Token view of the strandness element. -/
def strandTokens (b : Bool) (d : SDir) : List Str :=
  if b then
    match d with
    | .fr => [str "--rna-strandness", str "FR"]
    | .rf => [str "--rna-strandness", str "RF"]
    | .unstranded => []
  else []

/-- Token view of the input element(s). -/
def inputTokens (m : AMode) (f1 f2 : Str) : List Str :=
  if m = AMode.single then [str "-U", f1]
  else [str "-1", f1, str "-2", f2]

theorem splitWs_append_space (x y : Str) :
    splitWs (x ++ ' ' :: y) = splitWs x ++ splitWs y := by
  show splitWsAux [] (x ++ ' ' :: y) = splitWsAux [] x ++ splitWsAux [] y
  exact splitWsAux_append_space x [] y

theorem splitWs_pair {t v : Str} (htne : t ≠ [])
    (ht : ∀ ch ∈ t, isWsChar ch = false) (hvne : v ≠ [])
    (hv : ∀ ch ∈ v, isWsChar ch = false) :
    splitWs (t ++ ' ' :: v) = [t, v] := by
  rw [splitWs_append_space, splitWs_noWs htne ht, splitWs_noWs hvne hv]
  rfl

theorem flatSplit_append (A B : List Str) :
    flatSplit (A ++ B) = flatSplit A ++ flatSplit B := by
  induction A with
  | nil => rfl
  | cons a A2 ih =>
    rw [List.cons_append, flatSplit, flatSplit, ih, List.append_assoc]

theorem preset_token (p : Preset) :
    splitWs (str "--" ++ presetName p) = [str "--" ++ presetName p] := by
  cases p <;> decide

theorem preset_not_sel (p : Preset) :
    ∀ t ∈ selTokens, str "--" ++ presetName p ≠ t := by
  cases p <;> decide

theorem dta_split (b : Bool) :
    splitWs (if b then str "--dta" else []) = dtaTokens b := by
  cases b <;> decide

theorem strand_split (b : Bool) (d : SDir) :
    flatSplit (strandArgs b d) = strandTokens b d := by
  cases b <;> cases d <;> decide

theorem paired_arg_split {f1 f2 : Str} (hf1 : f1 ≠ [])
    (hf1w : ∀ ch ∈ f1, isWsChar ch = false) (hf2 : f2 ≠ [])
    (hf2w : ∀ ch ∈ f2, isWsChar ch = false) :
    splitWs (str "-1 " ++ f1 ++ str " -2 " ++ f2) =
      [str "-1", f1, str "-2", f2] := by
  have he : str "-1 " ++ f1 ++ str " -2 " ++ f2 =
      str "-1" ++ ' ' :: (f1 ++ ' ' :: (str "-2" ++ ' ' :: f2)) := by
    rw [show str "-1 " = str "-1" ++ [' '] from by decide,
      show str " -2 " = [' '] ++ (str "-2" ++ [' ']) from by decide]
    simp [List.append_assoc]
  rw [he, splitWs_append_space, splitWs_append_space, splitWs_append_space,
    splitWs_noWs (by decide) (by decide), splitWs_noWs hf1 hf1w,
    splitWs_noWs (by decide) (by decide), splitWs_noWs hf2 hf2w]
  rfl

theorem inputs_split (m : AMode) (f1 f2 : Str) (hf1 : f1 ≠ [])
    (hf1w : ∀ ch ∈ f1, isWsChar ch = false) (hf2 : f2 ≠ [])
    (hf2w : ∀ ch ∈ f2, isWsChar ch = false) :
    flatSplit (if m = AMode.single then [str "-U " ++ f1]
      else [str "-1 " ++ f1 ++ str " -2 " ++ f2]) = inputTokens m f1 f2 := by
  cases m with
  | single =>
    rw [if_pos rfl, inputTokens, if_pos rfl]
    have he : str "-U " ++ f1 = str "-U" ++ ' ' :: f1 := by
      rw [show str "-U " = str "-U" ++ [' '] from by decide, List.append_assoc]
      rfl
    rw [flatSplit, flatSplit, List.append_nil, he,
      splitWs_pair (by decide) (by decide) hf1 hf1w]
  | paired =>
    rw [if_neg (by decide), inputTokens, if_neg (by decide)]
    rw [flatSplit, flatSplit, List.append_nil,
      paired_arg_split hf1 hf1w hf2 hf2w]

theorem sArg_split (p : Str) :
    splitWs (str "-S " ++ p) = str "-S" :: splitWs p := by
  have he : str "-S " ++ p = str "-S" ++ ' ' :: p := by
    rw [show str "-S " = str "-S" ++ [' '] from by decide, List.append_assoc]
    rfl
  rw [he, splitWs_append_space, show splitWs (str "-S") = [str "-S"] from by decide,
    List.singleton_append]

theorem lookupAfter_cons_ne {tok a : Str} (rest : List Str) (h : a ≠ tok) :
    lookupAfter tok (a :: rest) = lookupAfter tok rest := by
  rw [lookupAfter, if_neg h]

theorem not_sel_parts {v : Str} (hv : v ∉ selTokens) :
    v ≠ str "-x" ∧ v ≠ str "-p" ∧ v ≠ str "-U" ∧ v ≠ str "-1" ∧
    v ≠ str "-2" ∧ v ≠ str "-S" := by
  refine ⟨?_, ?_, ?_, ?_, ?_, ?_⟩ <;>
    (intro he; rw [he] at hv; exact hv (by decide))

theorem natToStr_ne_sel (n : Nat) : ∀ t ∈ selTokens, natToStr n ≠ t := by
  intro t ht
  simp only [selTokens, List.mem_cons, List.not_mem_nil, or_false] at ht
  rcases ht with h | h | h | h | h | h <;> rw [h] <;> exact natToStr_ne_dash_cons n _

theorem not_mem_dtaTokens {t : Str} (h : t ≠ str "--dta") (b : Bool) :
    t ∉ dtaTokens b := by
  cases b
  · simp [dtaTokens]
  · simp [dtaTokens, h]

theorem not_mem_strandTokens {t : Str} (h1 : t ≠ str "--rna-strandness")
    (h2 : t ≠ str "FR") (h3 : t ≠ str "RF") (b : Bool) (d : SDir) :
    t ∉ strandTokens b d := by
  cases b <;> cases d <;> simp [strandTokens, h1, h2, h3]

/-- C8 counterexample: with an index path containing a space, joining the
command and splitting on whitespace loses the path — the token after the
index selector is only its first word — so the claimed round trip fails for
this (Configuration, Sample) pair. -/
theorem c8_space_in_index_breaks_roundtrip :
    lookupAfter (str "-x")
        (cmdTokens
          { index_path := str "my idx", input_files := str "a.fastq",
            input_files2 := [], output_dir := str "out",
            sample_name := str "s", threads := 4, preset_mode := .sensitive,
            alignment_mode := .single, dta_mode := false,
            strand_specific := false, strand_direction := .unstranded,
            batch_mode := false, batch_input_dir := [],
            hisat2_path := str "hisat2", samtools_path := str "samtools" }) =
      some (str "my") ∧
    str "my" ≠ str "my idx" := by
  decide

/-- C8 amended: for configurations whose tool path, index path and input
file paths are non-empty, contain no whitespace, and are not themselves
selector tokens, parsing the joined-and-split command line (the value after
the first occurrence of the index, thread-count and input-file selectors)
recovers the index path, the thread count and the input file paths
unchanged. -/
theorem c8_amended_roundtrip (c : Config)
    (hh1 : c.hisat2_path ≠ [])
    (hh2 : ∀ ch ∈ c.hisat2_path, isWsChar ch = false)
    (hh3 : c.hisat2_path ∉ selTokens)
    (hi1 : c.index_path ≠ [])
    (hi2 : ∀ ch ∈ c.index_path, isWsChar ch = false)
    (hi3 : c.index_path ∉ selTokens)
    (hf1 : c.input_files ≠ [])
    (hf2 : ∀ ch ∈ c.input_files, isWsChar ch = false)
    (hf3 : c.input_files ∉ selTokens)
    (hg1 : c.input_files2 ≠ [])
    (hg2 : ∀ ch ∈ c.input_files2, isWsChar ch = false) :
    lookupAfter (str "-x") (cmdTokens c) = some c.index_path ∧
    (lookupAfter (str "-p") (cmdTokens c)).map parseNat = some c.threads ∧
    (c.alignment_mode = AMode.single →
      lookupAfter (str "-U") (cmdTokens c) = some c.input_files) ∧
    (c.alignment_mode = AMode.paired →
      lookupAfter (str "-1") (cmdTokens c) = some c.input_files ∧
      lookupAfter (str "-2") (cmdTokens c) = some c.input_files2) := by
  have hxeq : str "-x " ++ c.index_path = str "-x" ++ ' ' :: c.index_path := by
    rw [show str "-x " = str "-x" ++ [' '] from by decide, List.append_assoc]
    rfl
  have hpeq : str "-p " ++ natToStr c.threads =
      str "-p" ++ ' ' :: natToStr c.threads := by
    rw [show str "-p " = str "-p" ++ [' '] from by decide, List.append_assoc]
    rfl
  have htok : cmdTokens c =
      c.hisat2_path :: str "-x" :: c.index_path :: str "-p" ::
        natToStr c.threads :: (str "--" ++ presetName c.preset_mode) ::
        (dtaTokens c.dta_mode ++
          (strandTokens c.strand_specific c.strand_direction ++
            (inputTokens c.alignment_mode c.input_files c.input_files2 ++
              str "-S" :: splitWs (samPath c)))) := by
    rw [cmdTokens, splitWs_join, buildCmd, List.append_assoc, List.append_assoc,
      flatSplit_append, flatSplit_append, flatSplit_append]
    rw [flatSplit, flatSplit, flatSplit, flatSplit, flatSplit, flatSplit]
    rw [splitWs_noWs hh1 hh2, hxeq, splitWs_pair (by decide) (by decide) hi1 hi2,
      hpeq, splitWs_pair (by decide) (by decide) (natToStr_ne_nil c.threads)
        (natToStr_noWs c.threads),
      preset_token, dta_split, strand_split,
      inputs_split c.alignment_mode _ _ hf1 hf2 hg1 hg2]
    rw [flatSplit, flatSplit, sArg_split, List.append_nil]
    simp only [List.cons_append, List.nil_append, List.append_assoc,
      List.append_nil]
  refine ⟨?_, ?_, ?_, ?_⟩
  · rw [htok, lookupAfter_cons_ne _ (not_sel_parts hh3).1, lookupAfter_cons_self]
  · rw [htok, lookupAfter_cons_ne _ (not_sel_parts hh3).2.1,
      lookupAfter_cons_ne _ (show str "-x" ≠ str "-p" from by decide),
      lookupAfter_cons_ne _ (not_sel_parts hi3).2.1,
      lookupAfter_cons_self]
    simp [parseNat_natToStr]
  · intro hm
    rw [htok, lookupAfter_cons_ne _ (not_sel_parts hh3).2.2.1,
      lookupAfter_cons_ne _ (show str "-x" ≠ str "-U" from by decide),
      lookupAfter_cons_ne _ (not_sel_parts hi3).2.2.1,
      lookupAfter_cons_ne _ (show str "-p" ≠ str "-U" from by decide),
      lookupAfter_cons_ne _ (natToStr_ne_sel c.threads _ (by decide)),
      lookupAfter_cons_ne _ (preset_not_sel c.preset_mode _ (by decide)),
      lookupAfter_append_of_not_mem _ (not_mem_dtaTokens (by decide) _),
      lookupAfter_append_of_not_mem _
        (not_mem_strandTokens (by decide) (by decide) (by decide) _ _),
      hm, inputTokens, if_pos rfl, List.cons_append, List.cons_append,
      List.nil_append, lookupAfter_cons_self]
  · intro hm
    constructor
    · rw [htok, lookupAfter_cons_ne _ (not_sel_parts hh3).2.2.2.1,
        lookupAfter_cons_ne _ (show str "-x" ≠ str "-1" from by decide),
        lookupAfter_cons_ne _ (not_sel_parts hi3).2.2.2.1,
        lookupAfter_cons_ne _ (show str "-p" ≠ str "-1" from by decide),
        lookupAfter_cons_ne _ (natToStr_ne_sel c.threads _ (by decide)),
        lookupAfter_cons_ne _ (preset_not_sel c.preset_mode _ (by decide)),
        lookupAfter_append_of_not_mem _ (not_mem_dtaTokens (by decide) _),
        lookupAfter_append_of_not_mem _
          (not_mem_strandTokens (by decide) (by decide) (by decide) _ _),
        hm, inputTokens, if_neg (by decide), List.cons_append, List.cons_append,
        List.cons_append, List.cons_append, List.nil_append,
        lookupAfter_cons_self]
    · rw [htok, lookupAfter_cons_ne _ (not_sel_parts hh3).2.2.2.2.1,
        lookupAfter_cons_ne _ (show str "-x" ≠ str "-2" from by decide),
        lookupAfter_cons_ne _ (not_sel_parts hi3).2.2.2.2.1,
        lookupAfter_cons_ne _ (show str "-p" ≠ str "-2" from by decide),
        lookupAfter_cons_ne _ (natToStr_ne_sel c.threads _ (by decide)),
        lookupAfter_cons_ne _ (preset_not_sel c.preset_mode _ (by decide)),
        lookupAfter_append_of_not_mem _ (not_mem_dtaTokens (by decide) _),
        lookupAfter_append_of_not_mem _
          (not_mem_strandTokens (by decide) (by decide) (by decide) _ _),
        hm, inputTokens, if_neg (by decide), List.cons_append, List.cons_append,
        List.cons_append, List.cons_append, List.nil_append,
        lookupAfter_cons_ne _ (show str "-1" ≠ str "-2" from by decide),
        lookupAfter_cons_ne _ (not_sel_parts hf3).2.2.2.2.1,
        lookupAfter_cons_self]

/-- C8 witness: the amended theorem at a concrete paired configuration. -/
theorem c8_amended_witness :
    lookupAfter (str "-x")
        (cmdTokens
          { index_path := str "idx/genome", input_files := str "in/a_R1.fastq",
            input_files2 := str "in/a_R2.fastq", output_dir := str "out",
            sample_name := str "s", threads := 4, preset_mode := .sensitive,
            alignment_mode := .paired, dta_mode := true,
            strand_specific := true, strand_direction := .fr,
            batch_mode := false, batch_input_dir := [],
            hisat2_path := str "hisat2", samtools_path := str "samtools" }) =
      some (str "idx/genome") ∧
    (lookupAfter (str "-p")
        (cmdTokens
          { index_path := str "idx/genome", input_files := str "in/a_R1.fastq",
            input_files2 := str "in/a_R2.fastq", output_dir := str "out",
            sample_name := str "s", threads := 4, preset_mode := .sensitive,
            alignment_mode := .paired, dta_mode := true,
            strand_specific := true, strand_direction := .fr,
            batch_mode := false, batch_input_dir := [],
            hisat2_path := str "hisat2", samtools_path := str "samtools" })).map
        parseNat = some 4 :=
  ⟨(c8_amended_roundtrip _ (by decide) (by decide) (by decide) (by decide)
      (by decide) (by decide) (by decide) (by decide) (by decide) (by decide)
      (by decide)).1,
   (c8_amended_roundtrip _ (by decide) (by decide) (by decide) (by decide)
      (by decide) (by decide) (by decide) (by decide) (by decide) (by decide)
      (by decide)).2.1⟩

end HisatGUI
